import Mathlib

/-!
Shallow embedding of the routing-and-caching core of the AV street-network
simulator (`2pathmap.py`): the `MapEngine` physical-path cache and abstract
graph rebuild, and the `AV` mission state machine.  Node identifiers are
natural numbers (OSM ids), physical edge lengths and derived edge weights are
natural numbers (in the source the abstract weights `len(path) * (1 + t**3)`
and the annotated `curr_cost` are built from integer node counts and integer
densities; the float `length` attribute is idealised to ℕ), screen coordinates
and timers are exact rationals.  The networkx weighted single-pair
shortest-path primitive is modelled by a deterministic Dijkstra that mirrors
networkx's heap semantics: tentative entries improve only on strictly smaller
distance, so among equal-cost paths the first-settled path wins.
-/

namespace AVSim

abbrev Node := Nat

/-- Association-list dictionary lookup: first binding of the key wins,
mirroring a Python dict (which holds at most one binding per key). -/
def dlookup {α β : Type} [DecidableEq α] : List (α × β) → α → Option β
  | [], _ => none
  | (a, b) :: rest, k => if a = k then some b else dlookup rest k

/-- Lookup with a default, mirroring Python `dict.get(k, d)`. -/
def dlookupD {α β : Type} [DecidableEq α] (l : List (α × β)) (k : α) (d : β) : β :=
  (dlookup l k).getD d

/-- Insert or overwrite a binding, mirroring Python `dict[k] = v`. -/
def dinsert {α β : Type} [DecidableEq α] : List (α × β) → α → β → List (α × β)
  | [], k, v => [(k, v)]
  | (a, b) :: rest, k, v => if a = k then (a, v) :: rest else (a, b) :: dinsert rest k v

/-- Canonical (sorted) unordered edge key, mirroring `tuple(sorted((u, v)))`. -/
def canonKey (u v : Node) : Node × Node :=
  if u ≤ v then (u, v) else (v, u)

/-- Edge-density map: canonical edge key to occupancy count
(`MapEngine.edge_density`). -/
abbrev DMap := List ((Node × Node) × Nat)

/-- Extensional dictionary equality, mirroring Python `d1 == d2` on dicts
(equal key sets and equal values, independent of insertion order). -/
def dictBeq (d1 d2 : DMap) : Bool :=
  (d1.map (·.1) ++ d2.map (·.1)).all (fun k => dlookup d1 k == dlookup d2 k)

/-- Undirected weighted graph as an insertion-ordered edge list.  Models both
the physical road graph (weights = edge lengths) and the abstract graph built
by `MapEngine.build_abstract_graph` (weights = derived costs).  networkx keeps
adjacency in edge-insertion order, which this list order reproduces. -/
structure WGraph where
  edges : List (Node × Node × Nat)
deriving DecidableEq, Repr

/-- Adjacency of `x` in edge-insertion order with weights, as networkx's
`G.neighbors` / `G[x][y]['weight']` expose it. -/
def WGraph.adj (G : WGraph) (x : Node) : List (Node × Nat) :=
  G.edges.filterMap (fun e =>
    if e.1 = x then some (e.2.1, e.2.2)
    else if e.2.1 = x then some (e.1, e.2.2) else none)

/-- Membership test mirroring `x in G.nodes` for a graph whose nodes all come
from `add_edge` calls. -/
def nodeMem (G : WGraph) (x : Node) : Bool :=
  G.edges.any (fun e => e.1 == x || e.2.1 == x)

/-- Add an edge with a weight, mirroring `nx.Graph.add_edge(u, v, weight=w)`:
if the unordered pair is already present its weight is overwritten, otherwise
the edge is appended. -/
def addEdgeW (G : WGraph) (u v : Node) (w : Nat) : WGraph :=
  if G.edges.any (fun e => (e.1 == u && e.2.1 == v) || (e.1 == v && e.2.1 == u)) then
    ⟨G.edges.map (fun e =>
      if (e.1 == u && e.2.1 == v) || (e.1 == v && e.2.1 == u) then (e.1, e.2.1, w) else e)⟩
  else ⟨G.edges ++ [(u, v, w)]⟩

/-- Dijkstra working state mirroring networkx `_dijkstra`: a fringe of
`(distance, push counter, node)` entries popped in lexicographic order,
finalised distances, tentative (`seen`) distances, and tentative paths. -/
structure DState where
  fringe : List (Nat × Nat × Node)
  dist : List (Node × Nat)
  seen : List (Node × Nat)
  paths : List (Node × List Node)
  cnt : Nat
deriving DecidableEq, Repr

/-- Pop the fringe entry minimal in `(distance, counter)` order, as a binary
heap with an insertion counter does. -/
def popMinFringe (l : List (Nat × Nat × Node)) :
    Option ((Nat × Nat × Node) × List (Nat × Nat × Node)) :=
  match l with
  | [] => none
  | x :: xs =>
    let best := xs.foldl
      (fun b y => if y.1 < b.1 ∨ (y.1 = b.1 ∧ y.2.1 < b.2.1) then y else b) x
    some (best, l.erase best)

/-- Record an improved tentative distance for `u` reached from `v`:
push on the fringe, update `seen` and the tentative path, bump the counter. -/
def dPush (v : Node) (st : DState) (u : Node) (vu : Nat) : DState :=
  { st with
    fringe := st.fringe ++ [(vu, st.cnt, u)],
    seen := dinsert st.seen u vu,
    paths := dinsert st.paths u (dlookupD st.paths v [] ++ [u]),
    cnt := st.cnt + 1 }

/-- Relax one adjacency entry exactly as networkx `_dijkstra` does: nodes with
finalised distances are skipped, and a tentative entry is (re)pushed only on a
strictly smaller distance, so equal-cost alternatives never displace the
first-recorded path. -/
def relaxOne (v : Node) (dv : Nat) (st : DState) (uw : Node × Nat) : DState :=
  let u := uw.1
  let vu := dv + uw.2
  if (dlookup st.dist u).isSome then st
  else
    match dlookup st.seen u with
    | some su => if vu < su then dPush v st u vu else st
    | none => dPush v st u vu

/-- Main Dijkstra loop, fuelled (each iteration pops one fringe entry; the
fuel below strictly dominates the total number of pushes, which is bounded by
one plus the relaxations performed, at most two per edge). -/
def dijkstraLoop (G : WGraph) : Nat → DState → DState
  | 0, st => st
  | fuel + 1, st =>
    match popMinFringe st.fringe with
    | none => st
    | some (x, rest) =>
      let st1 := { st with fringe := rest }
      if (dlookup st1.dist x.2.2).isSome then dijkstraLoop G fuel st1
      else
        let st2 := { st1 with dist := dinsert st1.dist x.2.2 x.1 }
        dijkstraLoop G fuel ((G.adj x.2.2).foldl (relaxOne x.2.2 x.1) st2)

/-- Fuel bound: pushes number at most `1 + 2·|edges|`, pops at most pushes. -/
def dijkFuel (G : WGraph) : Nat :=
  (2 * G.edges.length + 2) * (G.edges.length + 2)

/-- Run Dijkstra from a single source to completion. -/
def dijkstraRun (G : WGraph) (s : Node) : DState :=
  dijkstraLoop G (dijkFuel G)
    { fringe := [(0, 0, s)], dist := [], seen := [(s, 0)], paths := [(s, [s])], cnt := 1 }

/-- Model of the networkx weighted single-pair shortest-path call
(`nx.shortest_path(G, s, t, weight=...)`): `none` models both the
`NodeNotFound` and the `NetworkXNoPath` exception (every caller in the source
catches them). -/
def nxShortestPath (G : WGraph) (s t : Node) : Option (List Node) :=
  if nodeMem G s && nodeMem G t then dlookup (dijkstraRun G s).paths t else none

/-- Model of `nx.shortest_path_length(G, s, t, weight=...)`; `none` models the
exceptions, which the source's lookahead maps to an infinite remaining cost. -/
def nxShortestPathLength (G : WGraph) (s t : Node) : Option Nat :=
  if nodeMem G s && nodeMem G t then dlookup (dijkstraRun G s).dist t else none

/-- The routing-relevant state of `MapEngine`: the projected road graph with
its screen coordinates, the per-tick edge-density map, the blocked-edge list
(entries are `(u, v, key)` triples as in the source), the physical-path cache
keyed by canonical pairs, and the abstract-graph snapshot
(`_G_abs_cached` / `_last_edge_density_snapshot`). -/
structure MapState where
  physGraph : WGraph
  nodes : List (Node × (ℚ × ℚ))
  edgeDensity : DMap
  blockedEdges : List (Node × Node × Nat)
  physPathCache : List ((Node × Node) × List Node)
  gAbsCached : Option WGraph
  lastSnapshot : DMap
deriving DecidableEq, Repr

/-- Model of `MapEngine.get_phys_path(u, v)`: canonicalise the key, return a
cache hit unchanged, otherwise run the shortest-path primitive over the road
graph; a found path is memoised under the canonical key, a failure
(`except: return None`) leaves the cache untouched. -/
def getPhysPath (m : MapState) (u v : Node) : Option (List Node) × MapState :=
  match dlookup m.physPathCache (canonKey u v) with
  | some p => (some p, m)
  | none =>
    match nxShortestPath m.physGraph u v with
    | some p => (some p, { m with physPathCache := dinsert m.physPathCache (canonKey u v) p })
    | none => (none, m)

/-- Model of `MapEngine.invalidate_phys_cache`: clears every cached physical
path and drops the cached abstract graph. -/
def invalidatePhysCache (m : MapState) : MapState :=
  { m with physPathCache := [], gAbsCached := none }

/-- Model of the state change of `MapEngine.block_at` once its screen-space
nearest-edge search (rendering-layer float geometry, out of core scope) has
selected `best_e`: toggle the edge's membership in `blocked_edges` and
invalidate the physical-path cache. -/
def toggleBlockEdge (m : MapState) (e : Node × Node × Nat) : MapState :=
  if e ∈ m.blockedEdges then
    invalidatePhysCache { m with blockedEdges := m.blockedEdges.erase e }
  else
    invalidatePhysCache { m with blockedEdges := m.blockedEdges ++ [e] }

/-- Consecutive canonical edge keys along a physical path, as iterated by the
`for k in range(len(phys_path)-1)` loops of the source. -/
def pathEdgeKeys : List Node → List (Node × Node)
  | a :: b :: rest => canonKey a b :: pathEdgeKeys (b :: rest)
  | _ => []

/-- Whether a path traverses the given unordered edge. -/
def edgeOnPath (e : Node × Node) (p : List Node) : Bool :=
  (pathEdgeKeys p).contains (canonKey e.1 e.2)

/-- Summed edge density along a physical path
(`traffic += self.edge_density.get(key, 0)`). -/
def sumDensity (d : DMap) (p : List Node) : Nat :=
  (pathEdgeKeys p).foldl (fun s k => s + dlookupD d k 0) 0

/-- Derived abstract-edge weight:
`cost = len(phys_path) * (1 + (traffic ** 3))`. -/
def legCost (d : DMap) (p : List Node) : Nat :=
  p.length * (1 + (sumDensity d p) ^ 3)

/-- The `AbstractGraph` object as `build_abstract_graph` consumes it: the
precomputed abstract connections (unordered pairs, in generation order) and
the node labels.  Its one-time geometric generation (degree-sorted greedy
selection with screen-space spacing) runs before the behaviour specified by
the claims and is taken as given configuration. -/
structure GraphSys where
  connections : List (Node × Node)
  nodeMapping : List (Node × String)
deriving DecidableEq, Repr

/-- One iteration of the rebuild loop of `build_abstract_graph`: query the
physical-path cache for the connection, skip it when no (or an empty) path is
found, otherwise add the abstract edge with its density-derived cost. -/
def rebuildStep (d : DMap) (acc : WGraph × MapState) (uv : Node × Node) : WGraph × MapState :=
  let pr := getPhysPath acc.2 uv.1 uv.2
  match pr.1 with
  | none => (acc.1, pr.2)
  | some p => if p.isEmpty then (acc.1, pr.2) else (addEdgeW acc.1 uv.1 uv.2 (legCost d p), pr.2)

/-- Model of `MapEngine.build_abstract_graph(graph_sys, force)`: when `force`
is false, the density snapshot matches the live density map and a cached graph
exists, the cached graph is returned with no state change; otherwise the
abstract graph is rebuilt from the connections and stored, together with a
copy of the density map, as the new snapshot. -/
def buildAbstractGraph (m : MapState) (gs : GraphSys) (force : Bool) : WGraph × MapState :=
  if force = false ∧ dictBeq m.lastSnapshot m.edgeDensity = true ∧ m.gAbsCached.isSome = true then
    (m.gAbsCached.getD ⟨[]⟩, m)
  else
    let r := gs.connections.foldl (rebuildStep m.edgeDensity) (⟨[]⟩, m)
    (r.1, { r.2 with gAbsCached := some r.1, lastSnapshot := r.2.edgeDensity })

/-- The road graph re-weighted with the dynamic per-edge cost annotated by
`calculate_mission_and_go`:
`d['curr_cost'] = d.get('length', 1) * (1 + (t ** 3))` with `t` the canonical
edge's density. -/
def currCostGraph (G : WGraph) (d : DMap) : WGraph :=
  ⟨G.edges.map (fun e =>
    (e.1, e.2.1, e.2.2 * (1 + (dlookupD d (canonKey e.1 e.2.1) 0) ^ 3)))⟩

/-- Strict order on lookahead totals with `none` as the float `inf` the source
uses for an unreachable destination: `inf < inf` and `inf < x` are false,
`x < inf` is true. -/
def ltInf : Option Nat → Option Nat → Bool
  | some a, some b => decide (a < b)
  | some _, none => true
  | none, _ => false

/-- Total one-step lookahead cost of taking the adjacency entry `nw`
(neighbor, edge weight) toward `f`:
`edge_cost + rem_cost`, with an unreachable `f` giving `inf` (`none`). -/
def totWith (G : WGraph) (f : Node) (nw : Node × Nat) : Option Nat :=
  (nxShortestPathLength G nw.1 f).map (fun r => nw.2 + r)

/-- One step of the greedy neighbor scan shared by
`calculate_mission_and_go` and `check_dynamic_reroute`:
`if best_total is None or total < best_total: best_total, best_neighbor = ...`. -/
def bestStep (G : WGraph) (f : Node) (acc : Option (Node × Option Nat)) (nw : Node × Nat) :
    Option (Node × Option Nat) :=
  let tot := totWith G f nw
  match acc with
  | none => some (nw.1, tot)
  | some (b, bt) => if ltInf tot bt then some (nw.1, tot) else some (b, bt)

/-- The greedy lookahead over the current node's neighbors in adjacency
(iteration) order, returning the chosen neighbor and its total. -/
def bestNeighborFold (G : WGraph) (c f : Node) : Option (Node × Option Nat) :=
  (G.adj c).foldl (bestStep G f) none

/-- The live state of the `AV` mission controller.  The sprite-heading angle
(float `atan2` cosmetics feeding only the renderer) is omitted. -/
structure AVState where
  pos : ℚ × ℚ
  active : Bool
  currentNode : Option Node
  nextNodeTarget : Option Node
  finalDest : Option Node
  projectedPath : List Node
  pathCoords : List (ℚ × ℚ)
  coordIdx : Nat
  state : String
  waitTimer : ℚ
  alert : String
  recalcInterval : ℚ
  lastRecalcT : ℚ
  events : List (String × (Nat × Nat × Nat))
deriving DecidableEq, Repr

/-- `AV.__init__` field values (with `_last_recalc_t`, a wall-clock reading,
started at 0; time enters the model only through the explicit `now` input). -/
def initAV : AVState :=
  { pos := (0, 0), active := false, currentNode := none, nextNodeTarget := none,
    finalDest := none, projectedPath := [], pathCoords := [], coordIdx := 0,
    state := "IDLE", waitTimer := 0, alert := "Idle", recalcInterval := 1 / 2,
    lastRecalcT := 0, events := [] }

/-- Membership check of `calculate_mission_and_go`:
the plan proceeds iff neither
`self.current_node not in G_abs.nodes` nor
`self.final_dest not in G_abs.nodes` holds (an unset node, Python `None`,
is never a graph member). -/
def avNodesInGraph (av : AVState) (G : WGraph) : Bool :=
  match av.currentNode, av.finalDest with
  | some c, some f => nodeMem G c && nodeMem G f
  | _, _ => false

/-- Python `" > ".join(labels)`. -/
def joinSep (sep : String) : List String → String
  | [] => ""
  | [x] => x
  | x :: y :: rest => x ++ sep ++ joinSep sep (y :: rest)

/-- Python `int(q)` on the rational model of a float: truncation toward 0. -/
def qTrunc (q : ℚ) : Int :=
  q.num.tdiv q.den

/-- The source advances `pos` by `current_speed` along the unit vector toward
`target` (`pos += (d/dist)*speed` with `dist = hypot dx dy` irrational in
general).  The step is modelled exactly in ℚ by scaling the offset with
`speed² / dist²` — same direction, sub-tick float kinematics idealised; no
theorem below depends on the step's magnitude, only on the fields it leaves
untouched. -/
def stepToward (pos target : ℚ × ℚ) (cs : ℚ) : ℚ × ℚ :=
  let dx := target.1 - pos.1
  let dy := target.2 - pos.2
  let d2 := dx ^ 2 + dy ^ 2
  if d2 = 0 then pos else (pos.1 + dx * cs ^ 2 / d2, pos.2 + dy * cs ^ 2 / d2)

/-- Screen coordinate of a road node (`self.map.nodes[n]`; every node of the
loaded graph has an entry, so the default is never the value read). -/
def nodePos (m : MapState) (n : Node) : ℚ × ℚ :=
  dlookupD m.nodes n (0, 0)

/-- The planning tail of `calculate_mission_and_go` once a graph containing
both endpoints is at hand: base shortest path, greedy one-step lookahead with
its optional local switch of the next hop, alert construction, and the
physical first leg over the density-annotated road costs.  The source's
`except` around the lookahead block ("Routing Error") guards operations that
are total here and is unreachable; `raw_proj[1]` is defended by the
`len(raw_proj) < 2` early exit. -/
def planRest (av : AVState) (m : MapState) (gs : GraphSys) (G : WGraph) : AVState × MapState :=
  let c := av.currentNode.getD 0
  let f := av.finalDest.getD 0
  match nxShortestPath G c f with
  | none => ({ av with alert := "No Route!", active := false }, m)
  | some rawProj =>
    if rawProj.length < 2 then
      ({ av with state := "FINISHED", alert := "Arrived", active := false,
                 events := av.events ++ [("DESTINATION REACHED!", (50, 255, 50))] }, m)
    else
      let best := bestNeighborFold G c f
      let chosen0 := rawProj.getD 1 0
      let sw : Node × List Node × Bool × MapState :=
        match best with
        | none => (chosen0, rawProj, false, m)
        | some (bN, _) =>
          if bN ≠ chosen0 then
            let pr := getPhysPath m c bN
            match pr.1 with
            | none => (chosen0, rawProj, false, pr.2)
            | some l =>
              if l.isEmpty then (chosen0, rawProj, false, pr.2)
              else
                match nxShortestPath G bN f with
                | some tail => (bN, c :: tail, true, pr.2)
                | none => (chosen0, rawProj, false, pr.2)
          else (chosen0, rawProj, false, m)
      let chosen := sw.1
      let projected := sw.2.1
      let switched := sw.2.2.1
      let m1 := sw.2.2.2
      let labels := projected.map (fun n => dlookupD gs.nodeMapping n "?")
      let routeAlert :=
        ("Route: " ++ joinSep " > " (labels.take 6)) ++
          (if switched then " (rerouted locally)" else "")
      match nxShortestPath (currCostGraph m1.physGraph m1.edgeDensity) c chosen with
      | none =>
        ({ av with nextNodeTarget := some chosen, projectedPath := projected,
                   alert := "Road Blocked", active := false }, m1)
      | some physNodes =>
        ({ av with nextNodeTarget := some chosen, projectedPath := projected,
                   pathCoords := physNodes.map (nodePos m1), coordIdx := 0,
                   alert := "Routing to " ++ dlookupD gs.nodeMapping chosen "?" ++ " | " ++ routeAlert,
                   state := "MOVING" }, m1)

/-- Model of `AV.calculate_mission_and_go`: build the abstract graph lazily;
when the current or final node is absent, retry exactly once with a forced
rebuild; when either is still absent, set the "No Route!" alert and
deactivate the mission (the source's implicit failure exit). -/
def calcMission (av : AVState) (m : MapState) (gs : GraphSys) : AVState × MapState :=
  let b1 := buildAbstractGraph m gs false
  if avNodesInGraph av b1.1 then planRest av b1.2 gs b1.1
  else
    let b2 := buildAbstractGraph b1.2 gs true
    if avNodesInGraph av b2.1 then planRest av b2.2 gs b2.1
    else ({ av with alert := "No Route!", active := false }, b2.2)

/-- Model of `AV.check_dynamic_reroute`: same greedy lookahead as the plan,
scoped to the current node; on a winning other neighbor with an available
physical path, swap the leg's coordinates, next hop and projected path
mid-leg and report `True`.  `raw_proj[1]` is only reached while `MOVING`,
where the projected path has at least two nodes. -/
def checkDynamicReroute (av : AVState) (m : MapState) (gs : GraphSys) :
    Bool × AVState × MapState :=
  let b := buildAbstractGraph m gs false
  let G := b.1
  let m1 := b.2
  match av.currentNode with
  | none => (false, av, m1)
  | some c =>
    if nodeMem G c = false then (false, av, m1)
    else
      match av.finalDest with
      | none => (false, av, m1)
      | some f =>
        match nxShortestPath G c f with
        | none => (false, av, m1)
        | some raw =>
          match bestNeighborFold G c f with
          | none => (false, av, m1)
          | some (bN, _) =>
            if bN ≠ raw.getD 1 0 then
              let pr := getPhysPath m1 c bN
              match pr.1 with
              | none => (false, av, pr.2)
              | some l =>
                if l.isEmpty then (false, av, pr.2)
                else
                  (true,
                   { av with pathCoords := l.map (nodePos pr.2), coordIdx := 0,
                             nextNodeTarget := some bN,
                             projectedPath := (nxShortestPath G c f).getD [],
                             alert := "Rerouted -> " ++ dlookupD gs.nodeMapping bN "?" ++ " (mid-leg)" },
                   pr.2)
            else (false, av, m1)

/-- Model of `AV.start(user_waypoints)`: fewer than two waypoints is a
complete no-op; otherwise set the endpoints, jump to the start node's
coordinate, activate, and plan. -/
def startAV (av : AVState) (m : MapState) (gs : GraphSys) (waypoints : List Node) :
    AVState × MapState :=
  if waypoints.length < 2 then (av, m)
  else
    calcMission
      { av with currentNode := some (waypoints.getD 0 0),
                finalDest := some (waypoints.getLastD 0),
                pos := nodePos m (waypoints.getD 0 0), active := true }
      m gs

/-- Model of `AV.update(speed, dt)` with the wall clock passed explicitly as
`now`: inactive missions return untouched; `WAITING` counts the timer down and
replans on expiry; `MOVING` first runs the time-gated mid-leg reroute check,
then either closes out the leg (arrival or intermediate-node events and state
switch) or advances along the leg's coordinates (the `dist <= current_speed`
float comparison is the exact `dist² ≤ speed²` comparison on ℚ). -/
def updateAV (av : AVState) (m : MapState) (gs : GraphSys) (speed dt now : ℚ) :
    AVState × MapState :=
  if av.active = false then (av, m)
  else if av.state = "WAITING" then
    let wt := av.waitTimer - dt / 1000
    let avW := { av with waitTimer := wt,
                         alert := "Scanning at " ++
                           dlookupD gs.nodeMapping (av.currentNode.getD 0) "?" ++
                           "... " ++ toString (qTrunc wt) }
    if wt ≤ 0 then calcMission avW m gs else (avW, m)
  else if av.state = "MOVING" then
    let r := if now - av.lastRecalcT > av.recalcInterval then
               (checkDynamicReroute { av with lastRecalcT := now } m gs).2
             else (av, m)
    let av1 := r.1
    let m1 := r.2
    if (av1.coordIdx : Int) ≥ (av1.pathCoords.length : Int) - 1 then
      let avA := { av1 with currentNode := av1.nextNodeTarget }
      if avA.currentNode = avA.finalDest then
        ({ avA with state := "FINISHED", alert := "Arrived", active := false,
                    events := avA.events ++ [("DESTINATION REACHED!", (50, 255, 50))] }, m1)
      else
        ({ avA with events := avA.events ++
                      [("Reached Node " ++ dlookupD gs.nodeMapping (avA.currentNode.getD 0) "?",
                        (255, 255, 0))],
                    state := "WAITING", waitTimer := 1 }, m1)
    else
      let target := av1.pathCoords.getD (av1.coordIdx + 1) (0, 0)
      let dx := target.1 - av1.pos.1
      let dy := target.2 - av1.pos.2
      let cs := speed * 2
      if dx ^ 2 + dy ^ 2 ≤ cs ^ 2 then
        ({ av1 with pos := target, coordIdx := av1.coordIdx + 1 }, m1)
      else ({ av1 with pos := stepToward av1.pos target cs }, m1)
  else (av, m)

/-- A map state over a given road graph with empty caches and density, as
after `MapEngine.__init__` (screen coordinates supplied separately). -/
def baseMap (G : WGraph) : MapState :=
  { physGraph := G, nodes := [], edgeDensity := [], blockedEdges := [],
    physPathCache := [], gAbsCached := none, lastSnapshot := [] }

/-- Eight-intersection road graph realising four abstract legs: 1–2 direct,
2–4 via 7 and 8, 1–3 via 5, 3–4 via 6 (all unit lengths). -/
def physEx3 : WGraph :=
  ⟨[(1, 2, 1), (2, 7, 1), (7, 8, 1), (8, 4, 1), (1, 5, 1), (5, 3, 1), (3, 6, 1), (6, 4, 1)]⟩

/-- Screen coordinates for `physEx3`. -/
def nodesEx3 : List (Node × (ℚ × ℚ)) :=
  [(1, (0, 0)), (2, (1, 0)), (3, (0, 1)), (4, (2, 2)),
   (5, (0, 2)), (6, (1, 2)), (7, (2, 0)), (8, (2, 1))]

/-- Map state for the tie-switch scenario. -/
def mTie : MapState := { baseMap physEx3 with nodes := nodesEx3 }

/-- Abstract system over `physEx3`: four landmark nodes labelled A–D, with
connection (1,3) generated before (1,2), so node 3 precedes node 2 in node
1's abstract adjacency. -/
def gsTie : GraphSys :=
  ⟨[(1, 3), (1, 2), (2, 4), (3, 4)], [(1, "A"), (2, "B"), (3, "C"), (4, "D")]⟩

/-- A freshly started mission from node 1 to node 4. -/
def avTie : AVState := { initAV with active := true, currentNode := some 1, finalDest := some 4 }

/-- The abstract graph the rebuild derives over `physEx3`: leg weights are the
physical node counts (density is zero), giving the lookahead tie
3 + 3 = 2 + 4 toward node 4. -/
def gAbsTie : WGraph := ⟨[(1, 3, 3), (1, 2, 2), (2, 4, 4), (3, 4, 3)]⟩

/-- Road graph for the blocked-edge scenario: the shortest 1–3 route runs
through 2, and a longer direct 1–3 edge offers an alternative. -/
def mBlock : MapState := baseMap ⟨[(1, 2, 1), (2, 3, 1), (1, 3, 5)]⟩

/-- The blocked-edge scenario state after caching the 1–3 path and toggling a
block on edge (1, 2) (which clears the cache). -/
def mBlockAfter : MapState := toggleBlockEdge (getPhysPath mBlock 1 3).2 (1, 2, 0)

/-- State for the density-sensitivity scenario: the single abstract edge
(1, 2) was built at zero density (cached graph weight 2), and the live
density then changed on edge (3, 4), which lies on no abstract leg. -/
def mDens : MapState :=
  { (baseMap ⟨[(1, 2, 1)]⟩) with
    edgeDensity := [((3, 4), 5)]
    gAbsCached := some ⟨[(1, 2, 2)]⟩
    lastSnapshot := [] }

/-- Abstract system for the density-sensitivity scenario. -/
def gsDens : GraphSys := ⟨[(1, 2)], [(1, "A"), (2, "B")]⟩

/-- Empty abstract system (no connections), for the failed-plan scenario. -/
def gsEmpty : GraphSys := ⟨[], []⟩

/-- Mission state used by the failed-plan scenario. -/
def avPlan : AVState := { initAV with active := true, currentNode := some 1, finalDest := some 2 }

/-- The map state after a rebuild over `gsEmpty` from `mDens`'s road graph
with empty density: the empty abstract graph is cached. -/
def mPlanR : MapState := { (baseMap ⟨[(1, 2, 1)]⟩) with gAbsCached := some ⟨[]⟩ }

/-- A mission mid-`MOVING` whose leg coordinates are exhausted and whose next
hop is the final destination, with the periodic reroute check not yet due. -/
def avMove : AVState :=
  { initAV with
    active := true
    state := "MOVING"
    currentNode := some 1
    nextNodeTarget := some 2
    finalDest := some 2
    recalcInterval := 1 }

section Lemmas

/-- The canonical key is symmetric in its endpoints. -/
theorem canonKey_comm (u v : Node) : canonKey u v = canonKey v u := by
  unfold canonKey
  by_cases h1 : u ≤ v
  · by_cases h2 : v ≤ u
    · have h3 : u = v := Nat.le_antisymm h1 h2
      subst h3; rfl
    · rw [if_pos h1, if_neg h2]
  · by_cases h2 : v ≤ u
    · rw [if_neg h1, if_pos h2]
    · exact absurd (Nat.le_of_not_le h2) h1

/-- Looking up a freshly inserted binding returns it. -/
theorem dlookup_dinsert_self {α β : Type} [DecidableEq α]
    (l : List (α × β)) (k : α) (v : β) : dlookup (dinsert l k v) k = some v := by
  induction l with
  | nil => simp [dinsert, dlookup]
  | cons a rest ih =>
    by_cases h : a.1 = k
    · simp [dinsert, dlookup, h]
    · simp [dinsert, dlookup, h, ih]

/-- Inserting under one key leaves every other key's lookup unchanged. -/
theorem dlookup_dinsert_ne {α β : Type} [DecidableEq α]
    (l : List (α × β)) (k key : α) (v : β) (h : k ≠ key) :
    dlookup (dinsert l key v) k = dlookup l k := by
  induction l with
  | nil => simp [dinsert, dlookup, Ne.symm h]
  | cons ab rest ih =>
    obtain ⟨a, b⟩ := ab
    by_cases ha : a = key
    · subst ha
      simp [dinsert, dlookup, Ne.symm h]
    · simp [dinsert, dlookup, ha, ih]

/-- `get_phys_path` never removes or overwrites an existing cache binding:
a hit leaves the cache alone, and a miss inserts only under a key that was
absent. -/
theorem getPhysPath_cache_mono (m : MapState) (u v : Node) (k : Node × Node) (p0 : List Node)
    (h : dlookup m.physPathCache k = some p0) :
    dlookup ((getPhysPath m u v).2).physPathCache k = some p0 := by
  unfold getPhysPath
  cases hc : dlookup m.physPathCache (canonKey u v) with
  | some q => exact h
  | none =>
    cases hs : nxShortestPath m.physGraph u v with
    | some q =>
      have hk : k ≠ canonKey u v := by
        intro he
        rw [he, hc] at h
        exact Option.noConfusion h
      show dlookup (dinsert m.physPathCache (canonKey u v) q) k = some p0
      rw [dlookup_dinsert_ne _ _ _ _ hk]
      exact h
    | none => exact h

/-- A path returned by `get_phys_path` is cached in the returned state under
the canonical key of the queried pair. -/
theorem getPhysPath_found_cached (m : MapState) (u v : Node) (p : List Node) (m1 : MapState)
    (h : getPhysPath m u v = (some p, m1)) :
    dlookup m1.physPathCache (canonKey u v) = some p := by
  unfold getPhysPath at h
  cases hc : dlookup m.physPathCache (canonKey u v) with
  | some q =>
    rw [hc] at h
    injection h with h1 h2
    injection h1 with h1
    subst h1
    subst h2
    exact hc
  | none =>
    cases hs : nxShortestPath m.physGraph u v with
    | some q =>
      rw [hc, hs] at h
      injection h with h1 h2
      injection h1 with h1
      subst h1
      subst h2
      show dlookup (dinsert m.physPathCache (canonKey u v) q) (canonKey u v) = some q
      exact dlookup_dinsert_self _ _ _
    | none =>
      rw [hc, hs] at h
      injection h with h1 h2
      exact Option.noConfusion h1

/-- Transitivity of the non-strict (reversed-strict) total order. -/
theorem ltInf_le_trans {a b c : Option Nat}
    (h1 : ltInf a b = false) (h2 : ltInf b c = false) : ltInf a c = false := by
  cases a <;> cases b <;> cases c <;> simp [ltInf] at * <;> omega

/-- From `bt ≤ t` and `t < bt0` conclude `bt ≤ bt0`. -/
theorem ltInf_lt_le {t bt bt0 : Option Nat}
    (h1 : ltInf t bt = false) (h2 : ltInf t bt0 = true) : ltInf bt0 bt = false := by
  cases t <;> cases bt <;> cases bt0 <;> simp [ltInf] at * <;> omega

/-- Transitivity of the strict total order. -/
theorem ltInf_trans {a b c : Option Nat}
    (h1 : ltInf a b = true) (h2 : ltInf b c = true) : ltInf a c = true := by
  cases a <;> cases b <;> cases c <;> simp [ltInf] at * <;> omega

/-- From `a < b` and `b ≤ c` conclude `a < c`. -/
theorem ltInf_lt_of_lt_of_nlt {a b c : Option Nat}
    (h1 : ltInf a b = true) (h2 : ltInf c b = false) : ltInf a c = true := by
  cases a <;> cases b <;> cases c <;> simp [ltInf] at * <;> omega

/-- The greedy fold only improves on the seed and dominates every scanned
total: the result's total is ≤ the seed's and ≤ every element's total. -/
theorem bestFold_min (G : WGraph) (f : Node) :
    ∀ (l : List (Node × Nat)) (b0 : Node) (bt0 : Option Nat) (b : Node) (bt : Option Nat),
      l.foldl (bestStep G f) (some (b0, bt0)) = some (b, bt) →
      ltInf bt0 bt = false ∧ ∀ nw ∈ l, ltInf (totWith G f nw) bt = false := by
  intro l
  induction l with
  | nil =>
    intro b0 bt0 b bt h
    simp only [List.foldl] at h
    obtain ⟨h1, h2⟩ := Prod.mk.injEq .. ▸ (Option.some.inj h)
    subst h1; subst h2
    refine ⟨?_, by simp⟩
    cases bt0 <;> simp [ltInf]
  | cons nw rest ih =>
    intro b0 bt0 b bt h
    simp only [List.foldl, bestStep] at h
    by_cases hlt : ltInf (totWith G f nw) bt0 = true
    · rw [if_pos hlt] at h
      obtain ⟨hseed, hall⟩ := ih nw.1 (totWith G f nw) b bt h
      exact ⟨ltInf_lt_le hseed hlt, by
        intro x hx
        rcases List.mem_cons.mp hx with hx | hx
        · subst hx; exact hseed
        · exact hall x hx⟩
    · rw [if_neg (by simpa using hlt)] at h
      obtain ⟨hseed, hall⟩ := ih b0 bt0 b bt h
      refine ⟨hseed, ?_⟩
      intro x hx
      rcases List.mem_cons.mp hx with hx | hx
      · subst hx
        exact ltInf_le_trans (by simpa using hlt) hseed
      · exact hall x hx

/-- The greedy fold keeps the seed, or picks the first scanned entry that
strictly improves on everything before it: the result is the seed, or an
entry of the list whose total is strictly below the seed's and strictly
below the final total of every entry preceding it. -/
theorem bestFold_first (G : WGraph) (f : Node) :
    ∀ (l : List (Node × Nat)) (b0 : Node) (bt0 : Option Nat) (b : Node) (bt : Option Nat),
      l.foldl (bestStep G f) (some (b0, bt0)) = some (b, bt) →
      (b = b0 ∧ bt = bt0) ∨
        ∃ l1 nw l2, l = l1 ++ nw :: l2 ∧ b = nw.1 ∧ bt = totWith G f nw ∧
          ltInf bt bt0 = true ∧ ∀ x ∈ l1, ltInf bt (totWith G f x) = true := by
  intro l
  induction l with
  | nil =>
    intro b0 bt0 b bt h
    simp only [List.foldl] at h
    obtain ⟨h1, h2⟩ := Prod.mk.injEq .. ▸ (Option.some.inj h)
    exact Or.inl ⟨h1.symm, h2.symm⟩
  | cons y rest ih =>
    intro b0 bt0 b bt h
    simp only [List.foldl, bestStep] at h
    by_cases hlt : ltInf (totWith G f y) bt0 = true
    · rw [if_pos hlt] at h
      rcases ih y.1 (totWith G f y) b bt h with ⟨h1, h2⟩ | ⟨l1, nw, l2, hsplit, h1, h2, h3, h4⟩
      · refine Or.inr ⟨[], y, rest, rfl, h1, h2, ?_, by simp⟩
        rw [h2]
        exact hlt
      · refine Or.inr ⟨y :: l1, nw, l2, by rw [hsplit]; rfl, h1, h2, ltInf_trans h3 hlt, ?_⟩
        intro x hx
        rcases List.mem_cons.mp hx with hx | hx
        · subst hx
          exact h3
        · exact h4 x hx
    · rw [if_neg (by simpa using hlt)] at h
      rcases ih b0 bt0 b bt h with hL | ⟨l1, nw, l2, hsplit, h1, h2, h3, h4⟩
      · exact Or.inl hL
      · refine Or.inr ⟨y :: l1, nw, l2, by rw [hsplit]; rfl, h1, h2, h3, ?_⟩
        intro x hx
        rcases List.mem_cons.mp hx with hx | hx
        · subst hx
          exact ltInf_lt_of_lt_of_nlt h3 (by simpa using hlt)
        · exact h4 x hx

/-- Every edge of `addEdgeW G u v w` is an old edge, or joins the unordered
pair `{u, v}` (same canonical key) and carries weight `w`. -/
theorem addEdgeW_form (G : WGraph) (u v : Node) (w : Nat) :
    ∀ e ∈ (addEdgeW G u v w).edges,
      e ∈ G.edges ∨ (canonKey e.1 e.2.1 = canonKey u v ∧ e.2.2 = w) := by
  intro e he
  unfold addEdgeW at he
  by_cases hc : G.edges.any
      (fun e => (e.1 == u && e.2.1 == v) || (e.1 == v && e.2.1 == u)) = true
  · rw [if_pos hc] at he
    simp only at he
    obtain ⟨e0, he0, hfe⟩ := List.mem_map.mp he
    by_cases hp : ((e0.1 == u && e0.2.1 == v) || (e0.1 == v && e0.2.1 == u)) = true
    · rw [if_pos hp] at hfe
      subst hfe
      right
      refine ⟨?_, rfl⟩
      simp only [Bool.or_eq_true, Bool.and_eq_true, beq_iff_eq] at hp
      rcases hp with ⟨h1, h2⟩ | ⟨h1, h2⟩
      · rw [h1, h2]
      · rw [h1, h2]
        exact canonKey_comm v u
    · rw [if_neg hp] at hfe
      exact Or.inl (hfe ▸ he0)
  · rw [if_neg hc] at he
    simp only at he
    rcases List.mem_append.mp he with h | h
    · exact Or.inl h
    · simp only [List.mem_singleton] at h
      subst h
      exact Or.inr ⟨rfl, rfl⟩

/-- One rebuild step preserves the cache-tied weight invariant over the
fixed density map: each abstract edge's weight is the leg cost of the very
path cached under the edge's own canonical endpoint key. -/
theorem rebuildStep_ties (d : DMap) (acc : WGraph × MapState) (uv : Node × Node)
    (h : ∀ e ∈ acc.1.edges, ∃ p : List Node,
      dlookup acc.2.physPathCache (canonKey e.1 e.2.1) = some p ∧ p ≠ [] ∧ e.2.2 = legCost d p) :
    ∀ e ∈ (rebuildStep d acc uv).1.edges, ∃ p : List Node,
      dlookup ((rebuildStep d acc uv).2).physPathCache (canonKey e.1 e.2.1) = some p ∧
      p ≠ [] ∧ e.2.2 = legCost d p := by
  intro e he
  have hmono : ∀ (k : Node × Node) (p0 : List Node),
      dlookup acc.2.physPathCache k = some p0 →
      dlookup ((getPhysPath acc.2 uv.1 uv.2).2).physPathCache k = some p0 :=
    fun k p0 hk => getPhysPath_cache_mono acc.2 uv.1 uv.2 k p0 hk
  cases hp : (getPhysPath acc.2 uv.1 uv.2).1 with
  | none =>
    simp only [rebuildStep, hp] at he ⊢
    obtain ⟨p0, hpc, hne, hw⟩ := h e he
    exact ⟨p0, hmono _ _ hpc, hne, hw⟩
  | some p =>
    by_cases hemp : p.isEmpty = true
    · simp only [rebuildStep, hp, hemp, if_true] at he ⊢
      obtain ⟨p0, hpc, hne, hw⟩ := h e he
      exact ⟨p0, hmono _ _ hpc, hne, hw⟩
    · simp only [rebuildStep, hp] at he ⊢
      rw [if_neg hemp] at he ⊢
      rcases addEdgeW_form acc.1 uv.1 uv.2 (legCost d p) e he with hh | ⟨hkey, hww⟩
      · obtain ⟨p0, hpc, hne, hw⟩ := h e hh
        exact ⟨p0, hmono _ _ hpc, hne, hw⟩
      · refine ⟨p, ?_, by simpa [List.isEmpty_iff] using hemp, hww⟩
        rw [hkey]
        have hgp : getPhysPath acc.2 uv.1 uv.2 = (some p, (getPhysPath acc.2 uv.1 uv.2).2) := by
          rw [← hp]
        exact getPhysPath_found_cached acc.2 uv.1 uv.2 p _ hgp

/-- The derived leg cost is strictly monotone in the summed density for a
fixed nonempty physical path. -/
theorem legCost_lt_of_sum_lt (d1 d2 : DMap) (p : List Node) (hp : p ≠ [])
    (h : sumDensity d1 p < sumDensity d2 p) : legCost d1 p < legCost d2 p := by
  unfold legCost
  have h3 : sumDensity d1 p ^ 3 < sumDensity d2 p ^ 3 :=
    Nat.pow_lt_pow_left h (by norm_num)
  have hl : 0 < p.length := List.length_pos.mpr hp
  exact mul_lt_mul_of_pos_left (by omega) hl

/-- The whole rebuild fold preserves the cache-tied weight invariant. -/
theorem rebuildFold_ties (d : DMap) :
    ∀ (conns : List (Node × Node)) (acc : WGraph × MapState),
      (∀ e ∈ acc.1.edges, ∃ p : List Node,
        dlookup acc.2.physPathCache (canonKey e.1 e.2.1) = some p ∧
        p ≠ [] ∧ e.2.2 = legCost d p) →
      ∀ e ∈ (conns.foldl (rebuildStep d) acc).1.edges, ∃ p : List Node,
        dlookup ((conns.foldl (rebuildStep d) acc).2).physPathCache (canonKey e.1 e.2.1) = some p ∧
        p ≠ [] ∧ e.2.2 = legCost d p := by
  intro conns
  induction conns with
  | nil => intro acc h; simpa using h
  | cons uv rest ih => intro acc h; exact ih _ (rebuildStep_ties d acc uv h)

end Lemmas

section Claims

/-- C8: a `start` call with fewer than two waypoints leaves every mission
field and the map engine exactly as they were. -/
theorem start_guard_no_op :
    ∀ (av : AVState) (m : MapState) (gs : GraphSys) (ws : List Node),
      ws.length < 2 → startAV av m gs ws = (av, m) := by
  intro av m gs ws h
  unfold startAV
  rw [if_pos h]

/-- Witness for `start_guard_no_op` at a one-waypoint call. -/
theorem start_guard_no_op_witness :
    ([5] : List Node).length < 2 ∧
    startAV initAV (baseMap ⟨[(1, 2, 1)]⟩) gsEmpty [5] = (initAV, baseMap ⟨[(1, 2, 1)]⟩) :=
  ⟨by decide, start_guard_no_op initAV (baseMap ⟨[(1, 2, 1)]⟩) gsEmpty [5] (by decide)⟩

/-- C9: when the mission's active flag is false, a tick update is a complete
no-op on both the mission and the map engine. -/
theorem update_inactive_no_op :
    ∀ (av : AVState) (m : MapState) (gs : GraphSys) (speed dt now : ℚ),
      av.active = false → updateAV av m gs speed dt now = (av, m) := by
  intro av m gs speed dt now h
  unfold updateAV
  rw [if_pos h]

/-- Witness for `update_inactive_no_op` on the freshly initialised mission. -/
theorem update_inactive_no_op_witness :
    initAV.active = false ∧
    updateAV initAV (baseMap ⟨[(1, 2, 1)]⟩) gsEmpty 4 16 0 = (initAV, baseMap ⟨[(1, 2, 1)]⟩) :=
  ⟨rfl, update_inactive_no_op initAV (baseMap ⟨[(1, 2, 1)]⟩) gsEmpty 4 16 0 rfl⟩

/-- C10: a failed path query is never memoised — when `get_phys_path` finds
no route it returns `none` and the whole engine state (in particular the
cache) is exactly the input state. -/
theorem get_phys_path_miss_no_memo :
    ∀ (m : MapState) (u v : Node),
      (getPhysPath m u v).1 = none → getPhysPath m u v = (none, m) := by
  intro m u v h
  unfold getPhysPath at h ⊢
  cases hc : dlookup m.physPathCache (canonKey u v) with
  | some q =>
    rw [hc] at h
    exact Option.noConfusion h
  | none =>
    cases hs : nxShortestPath m.physGraph u v with
    | some q =>
      rw [hc, hs] at h
      exact Option.noConfusion h
    | none => rfl

/-- Witness for `get_phys_path_miss_no_memo` on a disconnected query. -/
theorem get_phys_path_miss_no_memo_witness :
    (getPhysPath (baseMap ⟨[]⟩) 1 2).1 = none ∧
    getPhysPath (baseMap ⟨[]⟩) 1 2 = (none, baseMap ⟨[]⟩) :=
  ⟨by decide, get_phys_path_miss_no_memo (baseMap ⟨[]⟩) 1 2 (by decide)⟩

/-- C5: `get_phys_path` canonicalises its key by sorting the endpoints, and
once one direction has produced a path the reversed query returns the very
same stored sequence with no state change — the two directions never
diverge. -/
theorem get_phys_path_cache_symmetry :
    (∀ u v : Node, canonKey u v = canonKey v u) ∧
    (∀ (m : MapState) (u v : Node) (p : List Node) (m1 : MapState),
      getPhysPath m u v = (some p, m1) → getPhysPath m1 v u = (some p, m1)) := by
  refine ⟨canonKey_comm, ?_⟩
  intro m u v p m1 h
  unfold getPhysPath at h ⊢
  rw [canonKey_comm v u]
  cases hc : dlookup m.physPathCache (canonKey u v) with
  | some q =>
    rw [hc] at h
    injection h with h1 h2
    injection h1 with h1
    subst h1
    subst h2
    rw [hc]
  | none =>
    cases hs : nxShortestPath m.physGraph u v with
    | some q =>
      rw [hc, hs] at h
      injection h with h1 h2
      injection h1 with h1
      subst h1
      subst h2
      simp only [dlookup_dinsert_self]
    | none =>
      rw [hc, hs] at h
      injection h with h1 h2
      exact Option.noConfusion h1

/-- Witness for `get_phys_path_cache_symmetry` on a freshly cached query. -/
theorem get_phys_path_cache_symmetry_witness :
    getPhysPath (baseMap ⟨[(1, 2, 1)]⟩) 1 2 =
      (some [1, 2], { (baseMap ⟨[(1, 2, 1)]⟩) with physPathCache := [((1, 2), [1, 2])] }) ∧
    getPhysPath { (baseMap ⟨[(1, 2, 1)]⟩) with physPathCache := [((1, 2), [1, 2])] } 2 1 =
      (some [1, 2], { (baseMap ⟨[(1, 2, 1)]⟩) with physPathCache := [((1, 2), [1, 2])] }) :=
  ⟨by decide,
   get_phys_path_cache_symmetry.2 (baseMap ⟨[(1, 2, 1)]⟩) 1 2 [1, 2]
     { (baseMap ⟨[(1, 2, 1)]⟩) with physPathCache := [((1, 2), [1, 2])] } (by decide)⟩

/-- C1 (amended): with `force` false, a snapshot matching the live density
map and an existing cached graph, `build` returns the cached graph with no
state change; and a rebuild changes an abstract edge's weight exactly when
the summed density along its (nonempty) physical path changes — a density
change that alters no abstract leg's path sum leaves every weight
unchanged. -/
theorem build_snapshot_reuse_and_density_sensitivity :
    (∀ (m : MapState) (gs : GraphSys) (g : WGraph),
       m.gAbsCached = some g → dictBeq m.lastSnapshot m.edgeDensity = true →
       buildAbstractGraph m gs false = (g, m)) ∧
    (∀ (d1 d2 : DMap) (p : List Node), p ≠ [] →
       sumDensity d1 p ≠ sumDensity d2 p → legCost d1 p ≠ legCost d2 p) := by
  constructor
  · intro m gs g hg hd
    unfold buildAbstractGraph
    rw [if_pos ⟨rfl, hd, by rw [hg]; rfl⟩, hg]
    rfl
  · intro d1 d2 p hp hne
    rcases Nat.lt_or_ge (sumDensity d1 p) (sumDensity d2 p) with hlt | hge
    · exact Nat.ne_of_lt (legCost_lt_of_sum_lt d1 d2 p hp hlt)
    · have hlt : sumDensity d2 p < sumDensity d1 p := Nat.lt_of_le_of_ne hge (Ne.symm hne)
      exact (Nat.ne_of_lt (legCost_lt_of_sum_lt d2 d1 p hp hlt)).symm

/-- Counterexample to C1 as stated: the live density differs from the stored
snapshot (a count changed on edge (3, 4)), the call takes the rebuild branch
(it stores a fresh snapshot), and yet the rebuilt graph has exactly the
cached graph's edges and weights, because the changed edge lies on no
abstract leg's physical path. -/
theorem density_change_unchanged_weights_cex :
    dictBeq mDens.lastSnapshot mDens.edgeDensity = false ∧
    mDens.gAbsCached = some ⟨[(1, 2, 2)]⟩ ∧
    (buildAbstractGraph mDens gsDens false).1 = ⟨[(1, 2, 2)]⟩ ∧
    (buildAbstractGraph mDens gsDens false).2.lastSnapshot = mDens.edgeDensity := by
  refine ⟨by decide, by decide, by decide, by decide⟩

/-- Witness for `build_snapshot_reuse_and_density_sensitivity`: a concrete
cache hit, and a concrete path-sum change that changes the leg cost. -/
theorem build_snapshot_reuse_witness :
    (mPlanR.gAbsCached = some ⟨[]⟩ ∧
     dictBeq mPlanR.lastSnapshot mPlanR.edgeDensity = true ∧
     buildAbstractGraph mPlanR gsEmpty false = (⟨[]⟩, mPlanR)) ∧
    (([1, 2] : List Node) ≠ [] ∧
     sumDensity ([] : DMap) [1, 2] ≠ sumDensity [((1, 2), 1)] [1, 2] ∧
     legCost ([] : DMap) [1, 2] ≠ legCost [((1, 2), 1)] [1, 2]) :=
  ⟨⟨by decide, by decide,
    build_snapshot_reuse_and_density_sensitivity.1 mPlanR gsEmpty ⟨[]⟩ (by decide) (by decide)⟩,
   ⟨by decide, by decide,
    build_snapshot_reuse_and_density_sensitivity.2 ([] : DMap) [((1, 2), 1)] [1, 2]
      (by decide) (by decide)⟩⟩

/-- C4: every abstract edge produced by a rebuild carries weight
`(physical path node count) × (1 + (summed density along the path)³)` for the
edge's own physical path — the path stored, in the engine state the rebuild
returns, under the edge's canonical endpoint key, i.e. exactly what
`get_phys_path` supplied for this edge during the rebuild — and for a fixed
nonempty path that weight is strictly increasing in the summed density. -/
theorem rebuild_weight_formula_and_monotone :
    (∀ (m : MapState) (gs : GraphSys) (e : Node × Node × Nat),
       e ∈ ((buildAbstractGraph m gs true).1).edges →
       ∃ p : List Node,
         dlookup ((buildAbstractGraph m gs true).2).physPathCache (canonKey e.1 e.2.1) =
           some p ∧
         p ≠ [] ∧
         e.2.2 = p.length * (1 + (sumDensity m.edgeDensity p) ^ 3)) ∧
    (∀ (d1 d2 : DMap) (p : List Node), p ≠ [] →
       sumDensity d1 p < sumDensity d2 p → legCost d1 p < legCost d2 p) := by
  constructor
  · intro m gs e he
    have hb1 : (buildAbstractGraph m gs true).1 =
        (gs.connections.foldl (rebuildStep m.edgeDensity) (⟨[]⟩, m)).1 := by
      simp [buildAbstractGraph]
    have hb2 : ((buildAbstractGraph m gs true).2).physPathCache =
        ((gs.connections.foldl (rebuildStep m.edgeDensity) (⟨[]⟩, m)).2).physPathCache := by
      simp [buildAbstractGraph]
    rw [hb1] at he
    rw [hb2]
    obtain ⟨p, hpc, hne, hw⟩ :=
      rebuildFold_ties m.edgeDensity gs.connections (⟨[]⟩, m) (by simp) e he
    exact ⟨p, hpc, hne, by simpa [legCost] using hw⟩
  · exact fun d1 d2 p hp h => legCost_lt_of_sum_lt d1 d2 p hp h

/-- Witness for `rebuild_weight_formula_and_monotone`: the single abstract
edge built over a two-node road graph, whose cached physical path [1, 2]
yields weight 2·(1 + 0³), and the cubic growth of a leg cost at densities 0
and 3. -/
theorem rebuild_weight_formula_witness :
    ((1, 2, 2) ∈ ((buildAbstractGraph (baseMap ⟨[(1, 2, 1)]⟩) gsDens true).1).edges ∧
     (∃ p : List Node,
        dlookup ((buildAbstractGraph (baseMap ⟨[(1, 2, 1)]⟩) gsDens true).2).physPathCache
            (canonKey (1 : Node) 2) = some p ∧
        p ≠ [] ∧
        (2 : Nat) = p.length * (1 + (sumDensity (baseMap ⟨[(1, 2, 1)]⟩).edgeDensity p) ^ 3))) ∧
    (([1, 2] : List Node) ≠ [] ∧
     sumDensity ([] : DMap) [1, 2] < sumDensity [((1, 2), 3)] [1, 2] ∧
     legCost ([] : DMap) [1, 2] < legCost [((1, 2), 3)] [1, 2]) :=
  ⟨⟨by decide,
    rebuild_weight_formula_and_monotone.1 (baseMap ⟨[(1, 2, 1)]⟩) gsDens (1, 2, 2) (by decide)⟩,
   ⟨by decide, by decide,
    rebuild_weight_formula_and_monotone.2 ([] : DMap) [((1, 2), 3)] [1, 2]
      (by decide) (by decide)⟩⟩

/-- C6: the plan requests a lazy build, retries exactly once with a forced
rebuild when the current or final node is absent, and when either is still
absent sets the alert to "No Route!" and deactivates the mission, changing
nothing else and raising no error (the function is total). -/
theorem plan_missing_node_retry_and_alert :
    ∀ (av : AVState) (m m1 m2 : MapState) (gs : GraphSys) (G1 G2 : WGraph),
      buildAbstractGraph m gs false = (G1, m1) →
      avNodesInGraph av G1 = false →
      buildAbstractGraph m1 gs true = (G2, m2) →
      avNodesInGraph av G2 = false →
      calcMission av m gs = ({ av with alert := "No Route!", active := false }, m2) := by
  intro av m m1 m2 gs G1 G2 h1 h2 h3 h4
  unfold calcMission
  rw [h1]
  simp only [h2, Bool.false_eq_true, if_false]
  rw [h3]
  simp only [h4, Bool.false_eq_true, if_false]

/-- Witness for `plan_missing_node_retry_and_alert` on an abstract system
with no connections (both builds yield the empty graph). -/
theorem plan_missing_node_witness :
    buildAbstractGraph (baseMap ⟨[(1, 2, 1)]⟩) gsEmpty false = (⟨[]⟩, mPlanR) ∧
    avNodesInGraph avPlan ⟨[]⟩ = false ∧
    buildAbstractGraph mPlanR gsEmpty true = (⟨[]⟩, mPlanR) ∧
    calcMission avPlan (baseMap ⟨[(1, 2, 1)]⟩) gsEmpty =
      ({ avPlan with alert := "No Route!", active := false }, mPlanR) :=
  ⟨by decide, by decide, by decide,
   plan_missing_node_retry_and_alert avPlan (baseMap ⟨[(1, 2, 1)]⟩) mPlanR mPlanR gsEmpty
     ⟨[]⟩ ⟨[]⟩ (by decide) (by decide) (by decide) (by decide)⟩

/-- C3 (amended): the pick of the greedy lookahead (`best_neighbor`, shared
by `calculate_mission_and_go` and `check_dynamic_reroute` through
`bestNeighborFold`) is the first neighbor in iteration order attaining the
minimal total lookahead cost: no neighbor in the current node's adjacency
has a strictly smaller total, and every neighbor preceding the pick in
iteration order has a strictly greater total.  Under an exact tie the pick
therefore depends on the iteration order, and a tying neighbor that precedes
the base path's second hop is picked over it (`tie_triggers_switch_cex`
exercises the resulting switch). -/
theorem lookahead_picks_first_minimal_total :
    ∀ (G : WGraph) (c f b : Node) (bt : Option Nat),
      bestNeighborFold G c f = some (b, bt) →
      (∀ nw ∈ G.adj c, ltInf (totWith G f nw) bt = false) ∧
      (∃ l1 nw l2, G.adj c = l1 ++ nw :: l2 ∧ b = nw.1 ∧ bt = totWith G f nw ∧
        ∀ x ∈ l1, ltInf bt (totWith G f x) = true) := by
  intro G c f b bt h
  unfold bestNeighborFold at h
  cases hadj : G.adj c with
  | nil =>
    rw [hadj] at h
    exact Option.noConfusion h
  | cons y rest =>
    rw [hadj] at h
    simp only [List.foldl, bestStep] at h
    obtain ⟨hseed, hall⟩ := bestFold_min G f rest y.1 (totWith G f y) b bt h
    have hfirst := bestFold_first G f rest y.1 (totWith G f y) b bt h
    constructor
    · intro x hx
      rcases List.mem_cons.mp hx with hx | hx
      · subst hx
        exact hseed
      · exact hall x hx
    · rcases hfirst with ⟨h1, h2⟩ | ⟨l1, nw, l2, hsplit, h1, h2, h3, h4⟩
      · exact ⟨[], y, rest, rfl, h1, h2, by simp⟩
      · refine ⟨y :: l1, nw, l2, by rw [hsplit]; rfl, h1, h2, ?_⟩
        intro x hx
        rcases List.mem_cons.mp hx with hx | hx
        · subst hx
          exact h3
        · exact h4 x hx

/-- Counterexample to C3 as stated: over `mTie`/`gsTie` the rebuilt abstract
graph is `gAbsTie`, the base shortest path is 1→2→4 (second hop 2), the
lookahead totals via 3 and via 2 are exactly equal (6 = 6), and yet the plan
commits next hop 3 and reroutes the projected path to 1→3→4 — an exact tie
does trigger a switch, because node 3 precedes node 2 in the neighbor
iteration order. -/
theorem tie_triggers_switch_cex :
    (buildAbstractGraph mTie gsTie false).1 = gAbsTie ∧
    nxShortestPath gAbsTie 1 4 = some [1, 2, 4] ∧
    totWith gAbsTie 4 (3, 3) = totWith gAbsTie 4 (2, 2) ∧
    (calcMission avTie mTie gsTie).1.nextNodeTarget = some 3 ∧
    (calcMission avTie mTie gsTie).1.projectedPath = [1, 3, 4] ∧
    (calcMission avTie mTie gsTie).1.alert =
      "Routing to C | Route: A > C > D (rerouted locally)" := by
  refine ⟨by decide, by decide, by decide, by decide, by decide, by decide⟩

/-- Witness for `lookahead_picks_first_minimal_total` on the tie graph. -/
theorem lookahead_minimal_total_witness :
    bestNeighborFold gAbsTie 1 4 = some (3, some 6) ∧
    ((∀ nw ∈ gAbsTie.adj 1, ltInf (totWith gAbsTie 4 nw) (some 6) = false) ∧
     (∃ l1 nw l2, gAbsTie.adj 1 = l1 ++ nw :: l2 ∧ 3 = nw.1 ∧
        (some 6 : Option Nat) = totWith gAbsTie 4 nw ∧
        ∀ x ∈ l1, ltInf (some 6) (totWith gAbsTie 4 x) = true)) :=
  ⟨by decide, lookahead_picks_first_minimal_total gAbsTie 1 4 3 (some 6) (by decide)⟩

/-- C2 evaluated (code bug): caching the 1→3 shortest path [1, 2, 3], then
toggling a block on edge (1, 2) — which clears the cache — still yields
[1, 2, 3] from the next `get_phys_path(1, 3)` query, a path traversing the
blocked edge, even though the unblocked direct edge (1, 3) offers an
alternative route: the route computation never consults `blocked_edges`. -/
theorem blocked_edge_ignored_by_routing :
    (getPhysPath mBlock 1 3).1 = some [1, 2, 3] ∧
    (1, 2, 0) ∈ mBlockAfter.blockedEdges ∧
    mBlockAfter.physPathCache = [] ∧
    (getPhysPath mBlockAfter 1 3).1 = some [1, 2, 3] ∧
    edgeOnPath (1, 2) [1, 2, 3] = true ∧
    edgeOnPath (1, 2) [1, 3] = false ∧
    (1, 3, 5) ∈ mBlockAfter.physGraph.edges := by
  refine ⟨by decide, by decide, by decide, by decide, by decide, by decide, by decide⟩

/-- C7: in a `MOVING` tick whose periodic reroute check is not due, once the
progress cursor has reached the end of the leg's coordinate sequence the
mission moves the current node to the leg's target and either — when that
target is the final destination — transitions to `FINISHED`, sets the
"Arrived" alert, deactivates and appends exactly one arrival event, or —
otherwise — transitions to `WAITING` with the fixed one-second timer and
appends exactly one intermediate-node-reached event; the map engine is
untouched either way. -/
theorem moving_leg_end_transitions :
    ∀ (av : AVState) (m : MapState) (gs : GraphSys) (speed dt now : ℚ),
      av.active = true → av.state = "MOVING" →
      ¬ (now - av.lastRecalcT > av.recalcInterval) →
      (av.coordIdx : Int) ≥ (av.pathCoords.length : Int) - 1 →
      ((av.nextNodeTarget = av.finalDest →
         updateAV av m gs speed dt now =
           ({ av with currentNode := av.nextNodeTarget, state := "FINISHED",
                      alert := "Arrived", active := false,
                      events := av.events ++ [("DESTINATION REACHED!", (50, 255, 50))] }, m)) ∧
       (av.nextNodeTarget ≠ av.finalDest →
         updateAV av m gs speed dt now =
           ({ av with currentNode := av.nextNodeTarget, state := "WAITING", waitTimer := 1,
                      events := av.events ++
                        [("Reached Node " ++
                            dlookupD gs.nodeMapping (av.nextNodeTarget.getD 0) "?",
                          (255, 255, 0))] }, m))) := by
  intro av m gs speed dt now h1 h2 h3 h4
  constructor
  · intro h5
    unfold updateAV
    rw [h1]
    rw [if_neg (by simp), h2, if_neg (by decide), if_pos rfl, if_neg h3, if_pos h4]
    simp [h5]
  · intro h5
    unfold updateAV
    rw [h1]
    rw [if_neg (by simp), h2, if_neg (by decide), if_pos rfl, if_neg h3, if_pos h4]
    simp [h5, h1]

/-- Witness for `moving_leg_end_transitions`: a one-leg mission whose target
is the final destination arrives and finishes. -/
theorem moving_leg_end_witness :
    avMove.active = true ∧ avMove.state = "MOVING" ∧
    ¬ ((0 : ℚ) - avMove.lastRecalcT > avMove.recalcInterval) ∧
    (avMove.coordIdx : Int) ≥ (avMove.pathCoords.length : Int) - 1 ∧
    avMove.nextNodeTarget = avMove.finalDest ∧
    updateAV avMove (baseMap ⟨[(1, 2, 1)]⟩) gsDens 4 16 0 =
      ({ avMove with currentNode := avMove.nextNodeTarget, state := "FINISHED",
                     alert := "Arrived", active := false,
                     events := avMove.events ++ [("DESTINATION REACHED!", (50, 255, 50))] },
       baseMap ⟨[(1, 2, 1)]⟩) :=
  ⟨rfl, rfl, by simp [avMove, initAV], by decide, rfl,
   (moving_leg_end_transitions avMove (baseMap ⟨[(1, 2, 1)]⟩) gsDens 4 16 0
      rfl rfl (by simp [avMove, initAV]) (by decide)).1 rfl⟩

end Claims

end AVSim
